import Mathlib

/-!
Verification of the Quantum Careers FastAPI backend (`server.py`).

The Python source is shallowly embedded: pure helper functions become Lean
functions on `List Char` / `String` / `ℚ`; Python `float` arithmetic is
modelled by exact rational arithmetic (every numeric fact proved here is
about values whose float representation is exact or whose rounding behaviour
is unaffected, as noted at each definition); Python `dict` arguments become
association lists; the global in-memory stores become an explicit
`ServerState` value threaded through the handlers.
-/

/-- Python ASCII whitespace as used by `str.strip()` and the regex class
`\s` (space, tab, newline, carriage return, vertical tab, form feed).
Non-ASCII whitespace is outside the model. -/
def isPySpace (c : Char) : Bool :=
  c.toNat == 32 || c.toNat == 9 || c.toNat == 10 || c.toNat == 13 || c.toNat == 11 || c.toNat == 12

/-- Python `str.strip()`: remove leading and trailing whitespace. -/
def pyStrip (s : String) : String :=
  ⟨((s.data.dropWhile isPySpace).reverse.dropWhile isPySpace).reverse⟩

/-- Python `str.lower()` restricted to ASCII (the only case the backend's
data exercises); `Char.toLower` maps `A`–`Z` to `a`–`z` and fixes the rest. -/
def pyLower (s : String) : String :=
  ⟨s.data.map Char.toLower⟩

/-- Python `str.upper()` restricted to ASCII. -/
def pyUpper (s : String) : String :=
  ⟨s.data.map Char.toUpper⟩

/-- Normalisation applied by `calculate_job_match`: `s.strip().lower()`. -/
def pyNorm (s : String) : String :=
  pyLower (pyStrip s)

/-- Lexicographic order on char lists by code point, the order Python uses
to compare strings. -/
def lexLe : List Char → List Char → Bool
  | [], _ => true
  | _ :: _, [] => false
  | a :: as, b :: bs =>
    if a.toNat < b.toNat then true
    else if b.toNat < a.toNat then false
    else lexLe as bs

/-- Python string `<=`, by code point. -/
def strLe (a b : String) : Bool :=
  lexLe a.data b.data

/-- Python `sorted()` on strings (ascending, by code point). -/
def pySortedStrings (l : List String) : List String :=
  List.insertionSort (fun a b => strLe a b = true) l

/-- Does `needle` occur as a prefix of `hay`? -/
def isPrefixL : List Char → List Char → Bool
  | [], _ => true
  | _ :: _, [] => false
  | a :: as, b :: bs => a == b && isPrefixL as bs

/-- Does `needle` occur as a contiguous sublist of `hay`? -/
def hasSubL (needle : List Char) : List Char → Bool
  | [] => isPrefixL needle []
  | h :: t => isPrefixL needle (h :: t) || hasSubL needle t

/-- Python substring test `needle in hay`. -/
def strContains (hay needle : String) : Bool :=
  hasSubL needle.data hay.data

/-- Python `round(x, 2)` (round half to even), modelled exactly on ℚ.  The
backend only rounds values whose distance from a half-way point is far
larger than any float representation error, so the exact rational model
agrees with CPython on every value reachable in this development. -/
def round2 (q : ℚ) : ℚ :=
  ((if q * 100 - ⌊q * 100⌋ < 1/2 then ⌊q * 100⌋
    else if (1 : ℚ)/2 < q * 100 - ⌊q * 100⌋ then ⌊q * 100⌋ + 1
    else if Even ⌊q * 100⌋ then ⌊q * 100⌋ else ⌊q * 100⌋ + 1 : ℤ) : ℚ) / 100

/-- An entry of the `education` list built by `parse_education`
(`{description, year}`; `year = none` models JSON `null`). -/
structure EduEntry where
  description : String
  year : Option ℕ
deriving DecidableEq

/-- An entry of the `work_experience` list built by `parse_work_experience`
(`{role, year, duration}`). -/
structure WorkEntry where
  role : String
  year : Option ℕ
  duration : ℕ
deriving DecidableEq

/-- `calculate_strength_score` (server.py:354-359): capped contributions of
skill, education and experience counts, clamped to 10 and rounded to two
decimals.  All intermediate values are multiples of 1/4 and at most 10, so
CPython's float arithmetic computes them exactly. -/
def calculate_strength_score (tech_stacks : List String) (education : List EduEntry)
    (experience : List WorkEntry) : ℚ :=
  let score : ℚ := 0
  let score := score + min ((tech_stacks.length : ℚ) * 0.5) 4.0
  let score := score + min ((education.length : ℚ) * 1.0) 3.0
  let score := score + min ((experience.length : ℚ) * 0.75) 3.0
  round2 (min score 10.0)

/-- `calculate_job_match` (server.py:447-453).  The Python sets
`u = {s.strip().lower() for s in user_skills}` and `j` likewise are modelled
as deduplicated lists; `sorted(u & j)` and `sorted(j - u)` become sorted
filters of `j`; the percentage is `len(matching)/len(j)*100` when `j` is
non-empty, else `0`. -/
def calculate_job_match (user_skills job_skills : List String) : ℚ × List String × List String :=
  let u : List String := (user_skills.map pyNorm).dedup
  let j : List String := (job_skills.map pyNorm).dedup
  let matching := pySortedStrings (j.filter (fun s => decide (s ∈ u)))
  let missing := pySortedStrings (j.filter (fun s => decide (s ∉ u)))
  let match_pct : ℚ := if j = [] then 0 else (matching.length : ℚ) / (j.length : ℚ) * 100
  (match_pct, matching, missing)

/-- An entry of the fixed `QUANTUM_JOBS` catalog. -/
structure Job where
  id : String
  title : String
  company : String
  description : String
  required_skills : List String
  experience_years : ℕ
  salary_range : String
deriving DecidableEq

/-- The fixed job catalog `QUANTUM_JOBS` (server.py:96-142). -/
def QUANTUM_JOBS : List Job := [
  { id := "qjob1", title := "Quantum Software Engineer", company := "IBM Quantum",
    description := "Develop quantum algorithms and software solutions",
    required_skills := ["Python", "Qiskit", "Machine Learning", "Linear Algebra", "Quantum Computing"],
    experience_years := 3, salary_range := "$120k - $180k" },
  { id := "qjob2", title := "Quantum Research Scientist", company := "Google Quantum AI",
    description := "Research quantum algorithms and quantum advantage",
    required_skills := ["Physics", "Python", "C++", "Mathematics", "Research", "Quantum Computing"],
    experience_years := 5, salary_range := "$150k - $220k" },
  { id := "qjob3", title := "Quantum Applications Developer", company := "Rigetti Computing",
    description := "Build quantum applications for real-world problems",
    required_skills := ["Python", "JavaScript", "Quantum Computing", "Cloud Computing", "APIs"],
    experience_years := 2, salary_range := "$100k - $150k" },
  { id := "qjob4", title := "Quantum Hardware Engineer", company := "IonQ",
    description := "Design and optimize quantum hardware systems",
    required_skills := ["Physics", "Electronics", "Python", "MATLAB", "Quantum Computing"],
    experience_years := 4, salary_range := "$130k - $190k" },
  { id := "qjob5", title := "Quantum Product Manager", company := "Amazon Braket",
    description := "Lead quantum computing product development",
    required_skills := ["Product Management", "Quantum Computing", "Business Strategy", "Python", "Communication"],
    experience_years := 6, salary_range := "$140k - $200k" }]

/-- The `JobRecommendation` pydantic model. -/
structure JobRecommendation where
  job_id : String
  title : String
  company : String
  match_percentage : ℚ
  matching_skills : List String
  missing_skills : List String

/-- The match percentage `calculate_job_match` reports for a job, before
rounding (used by `get_job_recommendations` both for the `> 0` filter and,
rounded, as the stored field). -/
def matchPct (user_skills : List String) (job : Job) : ℚ :=
  (calculate_job_match user_skills job.required_skills).1

/-- The `JobRecommendation(...)` literal built inside `get_job_recommendations`
for one catalog job. -/
def mkJobRecommendation (user_skills : List String) (job : Job) : JobRecommendation :=
  let r := calculate_job_match user_skills job.required_skills
  { job_id := job.id, title := job.title, company := job.company,
    match_percentage := round2 r.1, matching_skills := r.2.1, missing_skills := r.2.2 }

/-- `get_job_recommendations` (server.py:651-690), as a function of the
user's stored `tech_stacks`: build a recommendation for every catalog job
with positive match, sort descending by (rounded) match percentage with
CPython's stable `list.sort(..., reverse=True)` — modelled by the stable
`insertionSort` under `b.match_percentage ≤ a.match_percentage` — and keep
the first three. -/
def get_job_recommendations (user_skills : List String) : List JobRecommendation :=
  let recommendations := QUANTUM_JOBS.filterMap (fun job =>
    if 0 < matchPct user_skills job then some (mkJobRecommendation user_skills job) else none)
  (List.insertionSort (fun a b => b.match_percentage ≤ a.match_percentage) recommendations).take 3

/-- Position of a recommendation's job in the fixed catalog (job ids in the
catalog are pairwise distinct). -/
def recCatIdx (rec : JobRecommendation) : ℕ :=
  QUANTUM_JOBS.findIdx (fun job => job.id == rec.job_id)

/-- An MCQ question as used by the test sessions (`MCQ_FALLBACK` shape). -/
structure McqQuestion where
  id : String
  question : String
  options : List String
  correct_answer : Int
  category : String
  difficulty : String
deriving DecidableEq

/-- The fallback MCQ catalog `MCQ_FALLBACK` (server.py:392-417). -/
def MCQ_FALLBACK : List McqQuestion := [
  { id := "mcq1", question := "What is the basic unit of quantum information?",
    options := ["Bit", "Byte", "Qubit", "Gate"], correct_answer := 2,
    category := "quantum_basics", difficulty := "easy" },
  { id := "mcq2",
    question := "Which principle allows quantum computers to process multiple states simultaneously?",
    options := ["Entanglement", "Superposition", "Decoherence", "Interference"], correct_answer := 1,
    category := "quantum_basics", difficulty := "medium" },
  { id := "mcq3", question := "Which quantum gate creates superposition from the zero state?",
    options := ["Pauli-X", "Pauli-Z", "Hadamard", "CNOT"], correct_answer := 2,
    category := "quantum_gates", difficulty := "medium" }]

/-- One element of the `details` list built by `grade_mcq_answers`. -/
structure McqDetail where
  question_id : String
  correct : Bool
  user_answer : Int
  correct_answer : Int
  category : String
deriving DecidableEq

/-- The detail record `grade_mcq_answers` builds for one question:
`user_ans = answers.get(qid, -1)`, correct iff it equals the stored index. -/
def mcqDetail (answers : List (String × Int)) (q : McqQuestion) : McqDetail :=
  let user_ans : Int := (answers.lookup q.id).getD (-1)
  { question_id := q.id, correct := user_ans == q.correct_answer,
    user_answer := user_ans, correct_answer := q.correct_answer, category := q.category }

/-- The dict returned by `grade_mcq_answers`. -/
structure McqResults where
  score : ℚ
  correct : ℕ
  total : ℕ
  details : List McqDetail

/-- `grade_mcq_answers` (server.py:456-478): compare each submitted index
(default −1 when absent) with the stored correct index; the score is
`correct/total*100`, or `0` when there are no questions. -/
def grade_mcq_answers (questions : List McqQuestion) (answers : List (String × Int)) : McqResults :=
  let details := questions.map (mcqDetail answers)
  let correct := details.countP (fun d => d.correct)
  let total := questions.length
  { score := if total = 0 then 0 else ((correct : ℚ) / (total : ℚ)) * 100,
    correct := correct, total := total, details := details }

/-- A coding question as used by the test sessions.  The `test_cases`
payload is never read by the backend's grading code and is omitted. -/
structure CodingQuestion where
  id : String
  question : String
  template : String
  category : String
  difficulty : String
deriving DecidableEq

/-- The fallback coding catalog `CODING_FALLBACK` (server.py:419-444). -/
def CODING_FALLBACK : List CodingQuestion := [
  { id := "code1",
    question := "Write a Python function that calculates the factorial of a number recursively.",
    template := "def factorial(n):\n    # Your code here\n    pass",
    category := "programming", difficulty := "easy" },
  { id := "code2",
    question := "Implement a function to check if a string is a palindrome (ignore case and spaces).",
    template := "def is_palindrome(s):\n    # Your code here\n    pass",
    category := "programming", difficulty := "medium" }]

/-- The per-question heuristic score of `grade_coding_answers`: +30 for a
stripped length above 20, +30 for a `def `/`function ` marker, +40 for a
`return`. -/
def codeScore (user_code : String) : ℕ :=
  (if 20 < (pyStrip user_code).data.length then 30 else 0) +
  (if strContains user_code "def " || strContains user_code "function " then 30 else 0) +
  (if strContains user_code "return" then 40 else 0)

/-- One element of the `details` list built by `grade_coding_answers`. -/
structure CodingDetail where
  question_id : String
  score : ℕ
  max_score : ℕ
  feedback : String
deriving DecidableEq

/-- The detail record `grade_coding_answers` builds for one question
(`user_code = answers.get(qid, "") or ""`). -/
def codingDetail (answers : List (String × String)) (q : CodingQuestion) : CodingDetail :=
  let user_code := (answers.lookup q.id).getD ""
  let code_score := codeScore user_code
  { question_id := q.id, score := code_score, max_score := 100,
    feedback := if 60 < code_score then "Code structure looks good!"
                else "Could use improvement in structure." }

/-- The dict returned by `grade_coding_answers`. -/
structure CodingResults where
  score : ℚ
  details : List CodingDetail

/-- `grade_coding_answers` (server.py:481-505): sum the per-question
heuristic scores; overall score is `score/(total*100)*100`, or `0` when
there are no questions. -/
def grade_coding_answers (questions : List CodingQuestion) (answers : List (String × String)) :
    CodingResults :=
  let total := questions.length
  let details := questions.map (codingDetail answers)
  let score : ℕ := (details.map (fun d => d.score)).sum
  { score := if total = 0 then 0 else ((score : ℚ) / ((total : ℚ) * 100)) * 100,
    details := details }

/-- The keyword catalog `TECH_KEYWORDS` (server.py:278-285). -/
def TECH_KEYWORDS : List String := [
  "Python", "JavaScript", "Java", "C++", "C#", "Go", "Rust", "Ruby", "PHP",
  "React", "Angular", "Vue", "Node.js", "Django", "Flask", "FastAPI", "Spring",
  "Docker", "Kubernetes", "AWS", "Azure", "GCP", "Git", "Linux", "SQL", "MongoDB",
  "Machine Learning", "AI", "Deep Learning", "TensorFlow", "PyTorch", "Pandas", "NumPy",
  "Quantum Computing", "Qiskit", "Cirq", "Linear Algebra", "Statistics", "MATLAB",
  "Blockchain", "DevOps", "CI/CD", "Terraform", "Ansible"]

/-- Python `str.splitlines()` restricted to `\n` separators (the text fed to
the parsers is joined with `\n` by the extractors); a trailing newline does
not produce a final empty line. -/
def splitOnNl : List Char → List (List Char)
  | [] => [[]]
  | c :: rest =>
    let r := splitOnNl rest
    if c = '\n' then [] :: r
    else match r with
      | [] => [[c]]
      | h :: t => (c :: h) :: t

/-- Lines of a text, as iterated by `for line in text.splitlines()`. -/
def pyLines (text : String) : List String :=
  let ls := splitOnNl text.data
  let ls := if ls.getLast? = some [] then ls.dropLast else ls
  ls.map (fun l => (⟨l⟩ : String))

/-- `parse_tech_stacks` (server.py:308-314): the sorted set of catalog
keywords whose upper-cased form occurs in the upper-cased text. -/
def parse_tech_stacks (text : String) : List String :=
  pySortedStrings (TECH_KEYWORDS.filter (fun tech => strContains (pyUpper text) (pyUpper tech)))

/-- A word character for the regex class `\w` (ASCII: letters, digits,
underscore; non-ASCII word characters are outside the model). -/
def isWordChar (c : Char) : Bool :=
  c.isAlphanum || c == '_'

/-- A decimal digit, the regex class `\d` (ASCII). -/
def isDigitC (c : Char) : Bool :=
  48 ≤ c.toNat && c.toNat ≤ 57

/-- Numeric value of a decimal digit character. -/
def digitVal (c : Char) : ℕ :=
  c.toNat - 48

/-- A match of the year regex `\b(19\d{2}|20\d{2})\b` anchored at the head
of `cs`, given that the left word boundary already holds: four digits whose
first two are `19` or `20`, followed by end-of-text or a non-word
character. -/
def yearHead : List Char → Option ℕ
  | a :: b :: c :: d :: rest =>
    if ((a == '1' && b == '9') || (a == '2' && b == '0')) && isDigitC c && isDigitC d &&
        (match rest with | [] => true | e :: _ => !(isWordChar e)) then
      some (digitVal a * 1000 + digitVal b * 100 + digitVal c * 10 + digitVal d)
    else none
  | _ => none

/-- Scan for all matches of the year regex; the flag records whether the
current position sits at a left word boundary. -/
def yearScan : List Char → Bool → List ℕ
  | [], _ => []
  | c :: rest, leftOk =>
    (if leftOk then (yearHead (c :: rest)).toList else []) ++ yearScan rest (!(isWordChar c))

/-- `extract_years` (server.py:317-320): every 4-digit year 1900–2099 in the
text, delimited by word boundaries, in order of occurrence. -/
def extract_years (text : String) : List ℕ :=
  yearScan text.data true

/-- The `year` field emitted for a line: `max(years) if years else None`. -/
def lineYear (line : String) : Option ℕ :=
  (extract_years line).max?

/-- The `education_keywords` list (server.py:325). -/
def education_keywords : List String :=
  ["Bachelor", "Master", "PhD", "University", "College", "Degree"]

/-- The `work_keywords` list (server.py:340). -/
def work_keywords : List String :=
  ["Engineer", "Developer", "Manager", "Analyst", "Scientist", "Researcher", "Intern"]

/-- Case-insensitive keyword test `any(k.lower() in line.lower() for k in keywords)`. -/
def containsKeyword (keywords : List String) (line : String) : Bool :=
  keywords.any (fun k => strContains (pyLower line) (pyLower k))

/-- `parse_education` (server.py:323-335): iterate the lines, skip those
whose stripped length is below 12, collect those containing an education
keyword (case-insensitively) as `{description: stripped line, year}`, and
return the first four. -/
def parse_education (text : String) : List EduEntry :=
  ((pyLines text).filterMap (fun line =>
    if (pyStrip line).data.length < 12 then none
    else if containsKeyword education_keywords line then
      some { description := pyStrip line, year := lineYear line }
    else none)).take 4

/-- The loop body of `parse_work_experience`.  `random.randint(1, 4)` reads
the process-global Mersenne Twister; it is modelled by reading successive
values of an arbitrary pre-sampled stream `randVals` of values in `Fin 4`
(`duration = 1 + value ∈ [1,4]`), with the stream position threaded as
state. -/
def parse_work_experience_go (randVals : ℕ → Fin 4) :
    List String → ℕ → List WorkEntry × ℕ
  | [], k => ([], k)
  | line :: rest, k =>
    if (pyStrip line).data.length < 15 then parse_work_experience_go randVals rest k
    else if containsKeyword work_keywords line then
      let r := parse_work_experience_go randVals rest (k + 1)
      ({ role := pyStrip line, year := lineYear line,
         duration := 1 + (randVals k).val } :: r.1, r.2)
    else parse_work_experience_go randVals rest k

/-- `parse_work_experience` (server.py:338-351): collect qualifying lines
(stripped length at least 15, work keyword present) with a random filler
`duration`, and return the first six.  The returned counter is the number of
random draws consumed. -/
def parse_work_experience (randVals : ℕ → Fin 4) (k : ℕ) (text : String) :
    List WorkEntry × ℕ :=
  let r := parse_work_experience_go randVals (pyLines text) k
  (r.1.take 6, r.2)

/-- The stream of random values used in the concrete two-run experiment:
draw `n` cycles through 0,1,2,3. -/
def cycleVals : ℕ → Fin 4 :=
  fun n => ⟨n % 4, Nat.mod_lt n (by omega)⟩

/-- `parse_education` as the specification sentence states it: every line
longer than 10 characters containing an education marker qualifies.  (The
code instead requires the stripped length to be at least 12.) -/
def parse_education_spec (text : String) : List EduEntry :=
  (((pyLines text).filter (fun line =>
      decide (10 < line.data.length) && containsKeyword education_keywords line)).map
    (fun line => { description := pyStrip line, year := lineYear line })).take 4

/-- JSON values, the co-domain of the model of `json.loads`. -/
inductive Json where
  | null : Json
  | bool : Bool → Json
  | num : Int → Json
  | str : String → Json
  | arr : List Json → Json
  | obj : List (String × Json) → Json

/-- JSON whitespace accepted between tokens by `json.loads`. -/
def isJsonWs (c : Char) : Bool :=
  c == ' ' || c == '\t' || c == '\n' || c == '\x0d'

/-- Body of a JSON string literal after the opening quote, with the common
escapes; `\uXXXX` escapes are outside the model. -/
def parseJStringGo : List Char → List Char → Option (String × List Char)
  | acc, '"' :: rest => some ((⟨acc.reverse⟩ : String), rest)
  | acc, '\\' :: e :: rest =>
    (match e with
      | '"' => some '"'
      | '\\' => some '\\'
      | '/' => some '/'
      | 'n' => some '\n'
      | 't' => some '\t'
      | 'r' => some '\x0d'
      | 'b' => some '\x08'
      | 'f' => some '\x0c'
      | _ => none).bind (fun c => parseJStringGo (c :: acc) rest)
  | acc, c :: rest => if c.toNat < 32 then none else parseJStringGo (c :: acc) rest
  | _, [] => none

/-- Value of a non-empty digit string. -/
def natOfDigits (ds : List Char) : ℕ :=
  ds.foldl (fun a c => a * 10 + digitVal c) 0

/-- A JSON integer literal (floats and exponents are outside the model; the
backend's claims only exercise integer payloads). -/
def parseJNumber (cs : List Char) : Option (Int × List Char) :=
  let neg : Bool := match cs with | '-' :: _ => true | _ => false
  let cs1 := match cs with | '-' :: r => r | _ => cs
  let ds := cs1.takeWhile Char.isDigit
  let rest := cs1.dropWhile Char.isDigit
  if ds = [] then none
  else if 1 < ds.length ∧ ds.head? = some '0' then none
  else match rest with
    | '.' :: _ => none
    | 'e' :: _ => none
    | 'E' :: _ => none
    | _ => some (if neg then -(natOfDigits ds : Int) else (natOfDigits ds : Int), rest)

mutual

/-- Recursive descent for one JSON value (fuel-indexed; `json_loads` supplies
ample fuel). -/
def parseJsonF : ℕ → List Char → Option (Json × List Char)
  | 0, _ => none
  | fuel + 1, cs =>
    match cs.dropWhile isJsonWs with
    | 'n' :: 'u' :: 'l' :: 'l' :: rest => some (.null, rest)
    | 't' :: 'r' :: 'u' :: 'e' :: rest => some (.bool true, rest)
    | 'f' :: 'a' :: 'l' :: 's' :: 'e' :: rest => some (.bool false, rest)
    | '"' :: rest => (parseJStringGo [] rest).map (fun p => (.str p.1, p.2))
    | '\x7b' :: rest =>
      (match rest.dropWhile isJsonWs with
        | '\x7d' :: r2 => some (.obj [], r2)
        | _ => (parseJObjItems fuel rest).map (fun p => (.obj p.1, p.2)))
    | '[' :: rest =>
      (match rest.dropWhile isJsonWs with
        | ']' :: r2 => some (.arr [], r2)
        | _ => (parseJArrItems fuel rest).map (fun p => (.arr p.1, p.2)))
    | rest => (parseJNumber rest).map (fun p => (.num p.1, p.2))

/-- Members of a non-empty JSON object, after the opening brace. -/
def parseJObjItems : ℕ → List Char → Option (List (String × Json) × List Char)
  | 0, _ => none
  | fuel + 1, cs =>
    match cs.dropWhile isJsonWs with
    | '"' :: rest =>
      match parseJStringGo [] rest with
      | none => none
      | some (key, r1) =>
        match r1.dropWhile isJsonWs with
        | ':' :: r2 =>
          match parseJsonF fuel r2 with
          | none => none
          | some (v, r3) =>
            match r3.dropWhile isJsonWs with
            | ',' :: r4 => (parseJObjItems fuel r4).map (fun p => ((key, v) :: p.1, p.2))
            | '\x7d' :: r4 => some ([(key, v)], r4)
            | _ => none
        | _ => none
    | _ => none

/-- Elements of a non-empty JSON array, after the opening bracket. -/
def parseJArrItems : ℕ → List Char → Option (List Json × List Char)
  | 0, _ => none
  | fuel + 1, cs =>
    match parseJsonF fuel cs with
    | none => none
    | some (v, r1) =>
      match r1.dropWhile isJsonWs with
      | ',' :: r2 => (parseJArrItems fuel r2).map (fun p => (v :: p.1, p.2))
      | ']' :: r2 => some ([v], r2)
      | _ => none

end

/-- Python `json.loads`, on the JSON fragment the backend exercises
(objects, arrays, strings with plain escapes, integers, literals): parse one
value and require only whitespace to remain. -/
def json_loads (s : String) : Except String Json :=
  match parseJsonF (s.data.length + 2) s.data with
  | some (v, rest) => if rest.dropWhile isJsonWs = [] then .ok v else .error "Extra data"
  | none => .error "Expecting value"

/-- Suffix of the text after the first occurrence of a ``` fence. -/
def afterFence : List Char → Option (List Char)
  | '`' :: '`' :: '`' :: rest => some rest
  | _ :: rest => afterFence rest
  | [] => none

/-- Content before the next ``` fence, or `none` when no fence follows. -/
def beforeFence : List Char → Option (List Char)
  | '`' :: '`' :: '`' :: _ => some []
  | c :: rest => (beforeFence rest).map (fun l => c :: l)
  | [] => none

/-- Does the text start with the (case-insensitive) tag `json`? -/
def hasJsonTag : List Char → Bool
  | a :: b :: c :: d :: _ =>
    Char.toLower a == 'j' && Char.toLower b == 's' && Char.toLower c == 'o' &&
    Char.toLower d == 'n'
  | _ => false

/-- The regex search `JSON_BLOCK_RE.search(text)` for
````(?:json)?(.*?)``` `` (DOTALL, IGNORECASE): the text between the first
fence (with its optional `json` tag) and the next one. -/
def jsonBlockSearch (text : String) : Option String :=
  match afterFence text.data with
  | none => none
  | some s1 =>
    let s2 := if hasJsonTag s1 then s1.drop 4 else s1
    (beforeFence s2).map (fun content => (⟨content⟩ : String))

/-- The regex search `CURLY_EXTRACT_RE.search(text)` for `\{[\s\S]*\}`:
greedy span from the first opening brace to the last closing brace. -/
def curlyExtract (text : String) : Option String :=
  let cs := text.data
  match cs.findIdx? (fun c => c == '\x7b') with
  | none => none
  | some i =>
    match cs.reverse.findIdx? (fun c => c == '\x7d') with
    | none => none
    | some rk =>
      let k := cs.length - 1 - rk
      if i < k then some (⟨(cs.drop i).take (k - i + 1)⟩ : String) else none

/-- Python `text.strip('`')`: remove leading and trailing backticks. -/
def stripBackticks (s : String) : String :=
  ⟨((s.data.dropWhile (fun c => c == '`')).reverse.dropWhile (fun c => c == '`')).reverse⟩

/-- The substitution `re.sub(r"\\n", " ", ...)`: replace each literal
backslash-n pair by a space, left to right. -/
def replaceEscapedNl : List Char → List Char
  | '\\' :: 'n' :: rest => ' ' :: replaceEscapedNl rest
  | c :: rest => c :: replaceEscapedNl rest
  | [] => []

/-- The substitution `re.sub(r",\s*X", "X", ...)` for a closing bracket `X`:
drop a comma (and following whitespace) that directly precedes `X`,
scanning left to right over non-overlapping matches. -/
def dropCommaBefore (close : Char) : ℕ → List Char → List Char
  | 0, l => l
  | _ + 1, [] => []
  | fuel + 1, c :: rest =>
    if c == ',' then
      match rest.dropWhile isPySpace with
      | c2 :: r3 =>
        if c2 == close then close :: dropCommaBefore close fuel r3
        else c :: dropCommaBefore close fuel rest
      | [] => c :: dropCommaBefore close fuel rest
    else c :: dropCommaBefore close fuel rest

/-- The light textual repair applied by `safe_json_loads` as a last resort:
strip whitespace and stray backticks, collapse escaped newlines, remove
trailing commas before closing brackets. -/
def pyCleanup (text : String) : String :=
  let c := pyStrip (stripBackticks (pyStrip text))
  let c : String := ⟨replaceEscapedNl c.data⟩
  let c : String := ⟨dropCommaBefore ']' c.data.length c.data⟩
  let c : String := ⟨dropCommaBefore '\x7d' c.data.length c.data⟩
  c

/-- Attempt 2 of `safe_json_loads`: parse the stripped content of a fenced
code block, when one is found. -/
def fencedAttempt (text : String) : Option Json :=
  match jsonBlockSearch text with
  | none => none
  | some inner =>
    match json_loads (pyStrip inner) with
    | .ok v => some v
    | .error _ => none

/-- Attempt 3 of `safe_json_loads`: parse the first-brace-to-last-brace
span, when one is found. -/
def curlyAttempt (text : String) : Option Json :=
  match curlyExtract text with
  | none => none
  | some frag =>
    match json_loads frag with
    | .ok v => some v
    | .error _ => none

/-- `safe_json_loads` (server.py:214-248): reject empty input, then try in
order a direct parse, the fenced-block parse, the brace-span parse, and a
parse after light textual repair; the final parse's error propagates. -/
def safe_json_loads (text : String) : Except String Json :=
  if text = "" then .error "Empty content"
  else match json_loads text with
  | .ok v => .ok v
  | .error _ =>
    match fencedAttempt text with
    | some v => .ok v
    | none =>
      match curlyAttempt text with
      | some v => .ok v
      | none => json_loads (pyCleanup text)

/-- An `HTTPException` (or FastAPI's 500 response to an unhandled
exception), reduced to status code and detail. -/
structure HttpError where
  status_code : ℕ
  detail : String
deriving DecidableEq

/-- The session dict stored by `start_test` via `sess.dict()`
(server.py:709).  Field access on this structure corresponds to Python
subscript access `session["key"]`; Python *attribute* access on a dict is a
different operation, modelled by `dictAttr` below.  Times are abstract
naturals (seconds). -/
structure SessionDict where
  id : String
  user_id : String
  mcq_questions : List McqQuestion
  coding_questions : List CodingQuestion
  duration_minutes : ℕ
  status : String
  start_time : ℕ
  expires_at : ℕ

/-- Python attribute read `d.name` where `d` is a `dict`: the entry keys are
not attributes of the object, so the interpreter raises `AttributeError`,
which FastAPI surfaces as an HTTP 500 for the request. -/
def dictAttr (α : Type) (_d : SessionDict) (_name : String) : Except HttpError α :=
  .error { status_code := 500, detail := "AttributeError: dict object has no attribute" }

/-- Python attribute write `d.name = v` where `d` is a `dict`: also raises
`AttributeError` (dict instances accept no attributes). -/
def dictSetAttr (_d : SessionDict) (_name _val : String) : Except HttpError SessionDict :=
  .error { status_code := 500, detail := "AttributeError: dict object has no attribute" }

/-- The `TestSubmission` request body. -/
structure TestSubmission where
  session_id : String
  mcq_answers : List (String × Int)
  coding_answers : List (String × String)

/-- The result dict built by `submit_test`. -/
structure TestResultRec where
  session_id : String
  user_id : String
  mcq_results : McqResults
  coding_results : CodingResults
  total_score : ℚ
  timestamp : ℕ
  duration_taken : ℕ

/-- The in-memory stores `test_sessions` and `test_results`
(server.py:89-90), as association lists (`d[k] = v` conses; `lookup` reads
the most recent binding, matching dict update semantics). -/
structure ServerState where
  test_sessions : List (String × SessionDict)
  test_results : List (String × TestResultRec)

/-- `start_test` (server.py:693-723), with the generated uuid, the
Mistral-or-fallback question sets and the current time passed explicitly:
build a `TestSession` with status `active`, a 30 minute duration and expiry,
and store it as a dict (`sess.dict()`). -/
def start_test (st : ServerState) (sessionId userId : String) (mcq : List McqQuestion)
    (coding : List CodingQuestion) (now : ℕ) : ServerState × String :=
  let sess : SessionDict :=
    { id := sessionId, user_id := userId, mcq_questions := mcq, coding_questions := coding,
      duration_minutes := 30, status := "active", start_time := now,
      expires_at := now + 30 * 60 }
  ({ st with test_sessions := (sessionId, sess) :: st.test_sessions }, sessionId)

/-- `submit_test` (server.py:726-766).  After the 404 check the handler
reads `session.expires_at`, `session.status`, ... with attribute notation,
but `session` is the dict stored by `start_test`; the first such read
raises, so everything after the first `dictAttr` is unreachable (it is
transcribed to document the intended flow; the Python also writes
`test_results` before the status write, a difference that sits entirely in
this dead region). -/
def submit_test (st : ServerState) (now : ℕ) (sub : TestSubmission) :
    Except HttpError (TestResultRec × ServerState) := do
  let some session := st.test_sessions.lookup sub.session_id
    | throw { status_code := 404, detail := "Test session not found" }
  let expires_at ← dictAttr ℕ session "expires_at"
  let session ← if expires_at ≠ 0 ∧ expires_at < now then
      dictSetAttr session "status" "expired"
    else pure session
  let status ← dictAttr String session "status"
  if status ≠ "active" then
    throw { status_code := 400, detail := "Test session is not active" }
  let mcqQ ← dictAttr (List McqQuestion) session "mcq_questions"
  let codingQ ← dictAttr (List CodingQuestion) session "coding_questions"
  let mcq_results := grade_mcq_answers mcqQ sub.mcq_answers
  let coding_results := grade_coding_answers codingQ sub.coding_answers
  let total_score := round2 (mcq_results.score * 0.6 + coding_results.score * 0.4)
  let uid ← dictAttr String session "user_id"
  let result : TestResultRec :=
    { session_id := sub.session_id, user_id := uid, mcq_results := mcq_results,
      coding_results := coding_results, total_score := total_score, timestamp := now,
      duration_taken := 25 }
  let session2 ← dictSetAttr session "status" "completed"
  pure (result,
    { st with test_results := (sub.session_id, result) :: st.test_results,
              test_sessions := (sub.session_id, session2) :: st.test_sessions })

/-- The empty in-memory state at server start. -/
def emptyState : ServerState :=
  { test_sessions := [], test_results := [] }

/-! ### General lemmas -/

theorem round2_eq_self {q : ℚ} (h : ∃ z : ℤ, q * 100 = (z : ℚ)) : round2 q = q := by
  obtain ⟨z, hz⟩ := h
  have hq : q = (z : ℚ) / 100 := by
    rw [eq_div_iff (by norm_num : (100 : ℚ) ≠ 0)]
    exact hz
  unfold round2
  rw [hz, Int.floor_intCast]
  norm_num [hq]

theorem round2_pos {q : ℚ} (h : 1 ≤ q) : 0 < round2 q := by
  have hf : (100 : ℤ) ≤ ⌊q * 100⌋ := by
    rw [Int.le_floor]
    push_cast
    nlinarith
  unfold round2
  split_ifs <;>
    exact div_pos (Int.cast_pos.mpr (by omega)) (by norm_num)

theorem toNat_charOfNat {n : ℕ} (h : n < 55296) : (Char.ofNat n).toNat = n := by
  unfold Char.ofNat
  rw [dif_pos (Or.inl h)]
  rfl

theorem isPySpace_false_of_gt {x : Char} (hx : 64 < x.toNat) : isPySpace x = false := by
  unfold isPySpace
  simp only [Bool.or_eq_false_iff, beq_eq_false_iff_ne, ne_eq]
  omega

theorem toLower_isPySpace (c : Char) : isPySpace (Char.toLower c) = isPySpace c := by
  simp only [Char.toLower]
  split_ifs with h
  · have hc : 64 < c.toNat := by omega
    have hv : (Char.ofNat (c.toNat + 32)).toNat = c.toNat + 32 :=
      toNat_charOfNat (by omega)
    rw [isPySpace_false_of_gt (by omega), isPySpace_false_of_gt hc]
  · rfl

theorem pyLower_pyStrip (s : String) : pyLower (pyStrip s) = pyStrip (pyLower s) := by
  have hfun : (isPySpace ∘ Char.toLower) = isPySpace := funext toLower_isPySpace
  have key : ∀ X : List Char, (X.dropWhile isPySpace).map Char.toLower
      = (X.map Char.toLower).dropWhile isPySpace := by
    intro X
    rw [List.dropWhile_map, hfun]
  unfold pyLower pyStrip
  congr 1
  rw [List.map_reverse, key, List.map_reverse, key]

theorem pyNorm_eq_of_lower_eq {s t : String} (h : pyLower s = pyLower t) :
    pyNorm s = pyNorm t := by
  unfold pyNorm
  rw [pyLower_pyStrip, pyLower_pyStrip, h]

theorem lexLe_total : ∀ as bs : List Char, lexLe as bs = true ∨ lexLe bs as = true := by
  intro as
  induction as with
  | nil => intro bs; left; rfl
  | cons a as ih =>
    intro bs
    cases bs with
    | nil => right; rfl
    | cons b bs =>
      rcases Nat.lt_trichotomy a.toNat b.toNat with h | h | h
      · left; simp [lexLe, h]
      · rcases ih bs with h2 | h2
        · left
          simp only [lexLe]
          rw [if_neg (by omega : ¬ a.toNat < b.toNat), if_neg (by omega : ¬ b.toNat < a.toNat)]
          exact h2
        · right
          simp only [lexLe]
          rw [if_neg (by omega : ¬ b.toNat < a.toNat), if_neg (by omega : ¬ a.toNat < b.toNat)]
          exact h2
      · right; simp [lexLe, h]

theorem lexLe_trans :
    ∀ as bs cs : List Char, lexLe as bs = true → lexLe bs cs = true → lexLe as cs = true := by
  intro as
  induction as with
  | nil => intros; rfl
  | cons a as ih =>
    intro bs cs h1 h2
    cases bs with
    | nil => simp [lexLe] at h1
    | cons b bs =>
      cases cs with
      | nil => simp [lexLe] at h2
      | cons c cs =>
        rcases Nat.lt_trichotomy a.toNat b.toNat with hab | hab | hab
        · have hbc : b.toNat ≤ c.toNat := by
            by_contra hgt
            push_neg at hgt
            simp [lexLe, (by omega : ¬ b.toNat < c.toNat), (by omega : c.toNat < b.toNat)] at h2
            omega
          simp [lexLe, (by omega : a.toNat < c.toNat)]
        · have h1' : lexLe as bs = true := by
            have := h1
            simp only [lexLe] at this
            rwa [if_neg (by omega : ¬ a.toNat < b.toNat),
              if_neg (by omega : ¬ b.toNat < a.toNat)] at this
          rcases Nat.lt_trichotomy b.toNat c.toNat with hbc | hbc | hbc
          · simp [lexLe, (by omega : a.toNat < c.toNat)]
          · have h2' : lexLe bs cs = true := by
              have := h2
              simp only [lexLe] at this
              rwa [if_neg (by omega : ¬ b.toNat < c.toNat),
                if_neg (by omega : ¬ c.toNat < b.toNat)] at this
            simp only [lexLe]
            rw [if_neg (by omega : ¬ a.toNat < c.toNat),
              if_neg (by omega : ¬ c.toNat < a.toNat)]
            exact ih bs cs h1' h2'
          · simp [lexLe, (by omega : ¬ b.toNat < c.toNat), (by omega : c.toNat < b.toNat)] at h2
            exact absurd h2 (by omega)
        · simp [lexLe, (by omega : ¬ a.toNat < b.toNat), (by omega : b.toNat < a.toNat)] at h1
          exact absurd h1 (by omega)

theorem strLe_total (a b : String) : strLe a b = true ∨ strLe b a = true :=
  lexLe_total a.data b.data

theorem strLe_trans {a b c : String} (h1 : strLe a b = true) (h2 : strLe b c = true) :
    strLe a c = true :=
  lexLe_trans _ _ _ h1 h2

theorem sorted_pySortedStrings (l : List String) :
    List.Sorted (fun a b => strLe a b = true) (pySortedStrings l) := by
  haveI : IsTotal String (fun a b => strLe a b = true) := ⟨strLe_total⟩
  haveI : IsTrans String (fun a b => strLe a b = true) := ⟨fun _ _ _ => strLe_trans⟩
  exact List.sorted_insertionSort _ l

theorem length_pySortedStrings (l : List String) : (pySortedStrings l).length = l.length :=
  (List.perm_insertionSort _ l).length_eq

theorem mem_pySortedStrings {s : String} {l : List String} :
    s ∈ pySortedStrings l ↔ s ∈ l :=
  List.mem_insertionSort _

theorem nodup_pySortedStrings {l : List String} (h : l.Nodup) :
    (pySortedStrings l).Nodup :=
  ((List.perm_insertionSort _ l).nodup_iff).mpr h

theorem orderedInsert_pairwise_lex {α : Type} (key : α → ℚ) (idx : α → ℕ) (a : α) :
    ∀ l : List α,
      List.Pairwise (fun x y => key y < key x ∨ (key y = key x ∧ idx x < idx y)) l →
      (∀ b ∈ l, idx a < idx b) →
      List.Pairwise (fun x y => key y < key x ∨ (key y = key x ∧ idx x < idx y))
        (List.orderedInsert (fun x y => key y ≤ key x) a l) := by
  intro l
  induction l with
  | nil =>
    intro _ _
    simp [List.orderedInsert]
  | cons b t ih =>
    intro hl ha
    rw [List.orderedInsert]
    split_ifs with hr
    · refine List.Pairwise.cons ?_ hl
      intro x hx
      rcases List.mem_cons.mp hx with rfl | hxt
      · rcases lt_or_eq_of_le hr with hlt | heq
        · exact Or.inl hlt
        · exact Or.inr ⟨heq, ha x (List.mem_cons_self _ _)⟩
      · have hbx := (List.pairwise_cons.mp hl).1 x hxt
        rcases hbx with hlt | ⟨heq, _⟩
        · exact Or.inl (lt_of_lt_of_le hlt hr)
        · rcases lt_or_eq_of_le hr with h2 | h2
          · exact Or.inl (heq ▸ h2)
          · exact Or.inr ⟨heq.trans h2, ha x (List.mem_cons_of_mem _ hxt)⟩
    · have hr' : key a < key b := lt_of_not_le hr
      refine List.Pairwise.cons ?_
        (ih (List.pairwise_cons.mp hl).2 (fun x hx => ha x (List.mem_cons_of_mem _ hx)))
      intro x hx
      rcases (List.mem_orderedInsert _).mp hx with rfl | hxt
      · exact Or.inl hr'
      · exact (List.pairwise_cons.mp hl).1 x hxt

theorem insertionSort_pairwise_lex {α : Type} (key : α → ℚ) (idx : α → ℕ) :
    ∀ l : List α, List.Pairwise (fun x y => idx x < idx y) l →
      List.Pairwise (fun x y => key y < key x ∨ (key y = key x ∧ idx x < idx y))
        (List.insertionSort (fun x y => key y ≤ key x) l) := by
  intro l
  induction l with
  | nil =>
    intro _
    simp [List.insertionSort]
  | cons a t ih =>
    intro h
    rw [List.insertionSort]
    apply orderedInsert_pairwise_lex
    · exact ih (List.pairwise_cons.mp h).2
    · intro b hb
      exact (List.pairwise_cons.mp h).1 b ((List.mem_insertionSort _).mp hb)

theorem filterMap_guard_sublist {α β : Type} (p : α → Prop) [DecidablePred p] (g : α → β) :
    ∀ l : List α, (l.filterMap fun x => if p x then some (g x) else none).Sublist (l.map g) := by
  intro l
  induction l with
  | nil => simp
  | cons a t ih =>
    rw [List.filterMap_cons, List.map_cons]
    by_cases h : p a
    · rw [if_pos h]
      exact ih.cons₂ _
    · rw [if_neg h]
      exact ih.cons _

theorem filterMap_twoGuard {α β : Type} (p q : α → Prop) [DecidablePred p] [DecidablePred q]
    (g : α → β) :
    ∀ l : List α,
      (l.filterMap fun x => if p x then none else if q x then some (g x) else none)
        = ((l.filter fun x => decide (¬ p x) && decide (q x)).map g) := by
  intro l
  induction l with
  | nil => simp
  | cons a t ih =>
    by_cases hp : p a
    · have hf : (if p a then (none : Option β) else if q a then some (g a) else none) = none :=
        if_pos hp
      have hpred : (decide (¬ p a) && decide (q a)) = false := by simp [hp]
      rw [List.filterMap_cons, hf, List.filter_cons, hpred]
      simpa using ih
    · by_cases hq : q a
      · have hf : (if p a then (none : Option β) else if q a then some (g a) else none)
            = some (g a) := by rw [if_neg hp, if_pos hq]
        have hpred : (decide (¬ p a) && decide (q a)) = true := by simp [hp, hq]
        rw [List.filterMap_cons, hf, List.filter_cons, hpred]
        simpa using ih
      · have hf : (if p a then (none : Option β) else if q a then some (g a) else none)
            = none := by rw [if_neg hp, if_neg hq]
        have hpred : (decide (¬ p a) && decide (q a)) = false := by simp [hp, hq]
        rw [List.filterMap_cons, hf, List.filter_cons, hpred]
        simpa using ih

theorem strength_score_raw (S : List String) (E : List EduEntry) (W : List WorkEntry) :
    calculate_strength_score S E W
      = min ((S.length : ℚ) * 0.5) 4 + min ((E.length : ℚ) * 1.0) 3
        + min ((W.length : ℚ) * 0.75) 3 := by
  show round2 (min (0 + min ((S.length : ℚ) * 0.5) 4.0 + min ((E.length : ℚ) * 1.0) 3.0
      + min ((W.length : ℚ) * 0.75) 3.0) 10.0) = _
  rw [min_eq_left (by
    linarith [min_le_right ((S.length : ℚ) * 0.5) 4.0, min_le_right ((E.length : ℚ) * 1.0) 3.0,
      min_le_right ((W.length : ℚ) * 0.75) 3.0])]
  rw [zero_add]
  have ha' : ∃ za : ℤ, min ((S.length : ℚ) * 0.5) 4.0 * 100 = (za : ℚ) := by
    rcases min_choice ((S.length : ℚ) * 0.5) 4.0 with h | h
    · exact ⟨50 * S.length, by rw [h]; push_cast; ring⟩
    · exact ⟨400, by rw [h]; norm_num⟩
  have hb' : ∃ zb : ℤ, min ((E.length : ℚ) * 1.0) 3.0 * 100 = (zb : ℚ) := by
    rcases min_choice ((E.length : ℚ) * 1.0) 3.0 with h | h
    · exact ⟨100 * E.length, by rw [h]; push_cast; ring⟩
    · exact ⟨300, by rw [h]; norm_num⟩
  have hc' : ∃ zc : ℤ, min ((W.length : ℚ) * 0.75) 3.0 * 100 = (zc : ℚ) := by
    rcases min_choice ((W.length : ℚ) * 0.75) 3.0 with h | h
    · exact ⟨75 * W.length, by rw [h]; push_cast; ring⟩
    · exact ⟨300, by rw [h]; norm_num⟩
  obtain ⟨za, hza⟩ := ha'
  obtain ⟨zb, hzb⟩ := hb'
  obtain ⟨zc, hzc⟩ := hc'
  rw [round2_eq_self ⟨za + zb + zc, by push_cast; linarith⟩]
  norm_num

/-- C2: for every skill list `S`, education list `E` and work-experience
list `W`, `calculate_strength_score S E W` equals
`min(0.5·|S|,4) + min(1.0·|E|,3) + min(0.75·|W|,3)` (the clamp to 10 and
the rounding to two decimals are identities on this value), lies in
`[0, 10]`, and is non-decreasing in each of `|S|`, `|E|`, `|W|` holding the
other two fixed. -/
theorem C2_strength_score_spec (S : List String) (E : List EduEntry) (W : List WorkEntry) :
    calculate_strength_score S E W
      = min ((S.length : ℚ) * 0.5) 4 + min ((E.length : ℚ) * 1.0) 3
        + min ((W.length : ℚ) * 0.75) 3
    ∧ 0 ≤ calculate_strength_score S E W
    ∧ calculate_strength_score S E W ≤ 10
    ∧ (∀ S' : List String, S.length ≤ S'.length →
        calculate_strength_score S E W ≤ calculate_strength_score S' E W)
    ∧ (∀ E' : List EduEntry, E.length ≤ E'.length →
        calculate_strength_score S E W ≤ calculate_strength_score S E' W)
    ∧ (∀ W' : List WorkEntry, W.length ≤ W'.length →
        calculate_strength_score S E W ≤ calculate_strength_score S E W') := by
  refine ⟨strength_score_raw S E W, ?_, ?_, ?_, ?_, ?_⟩
  · rw [strength_score_raw]
    have h1 : (0 : ℚ) ≤ min ((S.length : ℚ) * 0.5) 4 := le_min (by positivity) (by norm_num)
    have h2 : (0 : ℚ) ≤ min ((E.length : ℚ) * 1.0) 3 := le_min (by positivity) (by norm_num)
    have h3 : (0 : ℚ) ≤ min ((W.length : ℚ) * 0.75) 3 := le_min (by positivity) (by norm_num)
    linarith
  · rw [strength_score_raw]
    have h1 : min ((S.length : ℚ) * 0.5) 4 ≤ 4 := min_le_right _ _
    have h2 : min ((E.length : ℚ) * 1.0) 3 ≤ 3 := min_le_right _ _
    have h3 : min ((W.length : ℚ) * 0.75) 3 ≤ 3 := min_le_right _ _
    linarith
  · intro S' h
    rw [strength_score_raw, strength_score_raw]
    have : ((S.length : ℚ)) ≤ (S'.length : ℚ) := by exact_mod_cast h
    gcongr
  · intro E' h
    rw [strength_score_raw, strength_score_raw]
    have : ((E.length : ℚ)) ≤ (E'.length : ℚ) := by exact_mod_cast h
    gcongr
  · intro W' h
    rw [strength_score_raw, strength_score_raw]
    have : ((W.length : ℚ)) ≤ (W'.length : ℚ) := by exact_mod_cast h
    gcongr

theorem C2_strength_score_spec_witness :
    calculate_strength_score ["Python"] [] []
      ≤ calculate_strength_score ["Python", "SQL"] [] [] :=
  (C2_strength_score_spec ["Python"] [] []).2.2.2.1 ["Python", "SQL"] (by decide)

theorem job_match_pct_def (U J : List String) :
    (calculate_job_match U J).1
      = (if (J.map pyNorm).dedup = [] then (0 : ℚ)
         else (((J.map pyNorm).dedup.filter
                  (fun s => decide (s ∈ (U.map pyNorm).dedup))).length : ℚ)
                / ((J.map pyNorm).dedup.length : ℚ) * 100) := by
  unfold calculate_job_match
  dsimp only
  rw [length_pySortedStrings]

/-- C3: for all user-skill lists `U` and job-skill lists `J`, the percentage
returned by `calculate_job_match U J` lies in `[0, 100]`; it is `0` when `J`
is empty; and it is exactly `100` when `J` is non-empty and the lower-cased
user skills include every lower-cased skill of `J`. -/
theorem C3_job_match_percentage_spec (U J : List String) :
    0 ≤ (calculate_job_match U J).1 ∧ (calculate_job_match U J).1 ≤ 100
    ∧ (J = [] → (calculate_job_match U J).1 = 0)
    ∧ (J ≠ [] → (∀ t ∈ J, ∃ s ∈ U, pyLower s = pyLower t) →
        (calculate_job_match U J).1 = 100) := by
  refine ⟨?_, ?_, ?_, ?_⟩
  · rw [job_match_pct_def]
    split_ifs with h
    · exact le_refl 0
    · positivity
  · rw [job_match_pct_def]
    split_ifs with h
    · norm_num
    · have hlen : ((J.map pyNorm).dedup.filter
          (fun s => decide (s ∈ (U.map pyNorm).dedup))).length
          ≤ (J.map pyNorm).dedup.length := List.length_filter_le _ _
      have hpos : 0 < ((J.map pyNorm).dedup.length : ℚ) := by
        exact_mod_cast List.length_pos.mpr h
      rw [div_mul_eq_mul_div, div_le_iff₀ hpos]
      have hc : (((J.map pyNorm).dedup.filter
          (fun s => decide (s ∈ (U.map pyNorm).dedup))).length : ℚ)
          ≤ ((J.map pyNorm).dedup.length : ℚ) := by exact_mod_cast hlen
      nlinarith
  · intro hJ
    subst hJ
    simp [job_match_pct_def]
  · intro hJ hsup
    rw [job_match_pct_def]
    have hjne : (J.map pyNorm).dedup ≠ [] := by
      rw [Ne, List.dedup_eq_nil, List.map_eq_nil_iff]
      exact hJ
    rw [if_neg hjne]
    have hfil : (J.map pyNorm).dedup.filter (fun s => decide (s ∈ (U.map pyNorm).dedup))
        = (J.map pyNorm).dedup := by
      rw [List.filter_eq_self]
      intro x hx
      rw [decide_eq_true_eq]
      have hxm : x ∈ J.map pyNorm := List.mem_dedup.mp hx
      obtain ⟨t, ht, rfl⟩ := List.mem_map.mp hxm
      obtain ⟨s, hs, hlow⟩ := hsup t ht
      have heq : pyNorm s = pyNorm t := pyNorm_eq_of_lower_eq hlow
      rw [List.mem_dedup, ← heq]
      exact List.mem_map_of_mem pyNorm hs
    rw [hfil]
    have hpos : ((J.map pyNorm).dedup.length : ℚ) ≠ 0 := by
      have := List.length_pos.mpr hjne
      exact_mod_cast Nat.pos_iff_ne_zero.mp this
    rw [div_self hpos]
    norm_num

theorem C3_job_match_percentage_spec_witness :
    (calculate_job_match ["PYTHON", "SQL"] ["python"]).1 = 100 :=
  (C3_job_match_percentage_spec ["PYTHON", "SQL"] ["python"]).2.2.2 (by decide) (by decide)

/-- C10: for all `U` and `J`, the matching and missing lists returned by
`calculate_job_match U J` are disjoint sorted duplicate-free lists of
trimmed lower-cased skill names whose union is exactly the set of trimmed
lower-cased skills of `J`; in particular their lengths sum to the
cardinality of that set. -/
theorem C10_job_match_lists_spec (U J : List String) :
    List.Disjoint (calculate_job_match U J).2.1 (calculate_job_match U J).2.2
    ∧ List.Sorted (fun a b => strLe a b = true) (calculate_job_match U J).2.1
    ∧ List.Sorted (fun a b => strLe a b = true) (calculate_job_match U J).2.2
    ∧ (calculate_job_match U J).2.1.Nodup
    ∧ (calculate_job_match U J).2.2.Nodup
    ∧ (∀ s, s ∈ (calculate_job_match U J).2.1 ++ (calculate_job_match U J).2.2
        ↔ s ∈ J.map pyNorm)
    ∧ (calculate_job_match U J).2.1.length + (calculate_job_match U J).2.2.length
        = (J.map pyNorm).toFinset.card := by
  have hm : (calculate_job_match U J).2.1 = pySortedStrings ((J.map pyNorm).dedup.filter
      (fun s => decide (s ∈ (U.map pyNorm).dedup))) := rfl
  have hms : (calculate_job_match U J).2.2 = pySortedStrings ((J.map pyNorm).dedup.filter
      (fun s => decide (s ∉ (U.map pyNorm).dedup))) := rfl
  refine ⟨?_, ?_, ?_, ?_, ?_, ?_, ?_⟩
  · rw [hm, hms]
    intro x hx1 hx2
    have h1 := (List.mem_filter.mp (mem_pySortedStrings.mp hx1)).2
    have h2 := (List.mem_filter.mp (mem_pySortedStrings.mp hx2)).2
    rw [decide_eq_true_eq] at h1 h2
    exact h2 h1
  · rw [hm]; exact sorted_pySortedStrings _
  · rw [hms]; exact sorted_pySortedStrings _
  · rw [hm]; exact nodup_pySortedStrings ((List.nodup_dedup _).filter _)
  · rw [hms]; exact nodup_pySortedStrings ((List.nodup_dedup _).filter _)
  · intro s
    rw [hm, hms]
    simp only [List.mem_append, mem_pySortedStrings, List.mem_filter, decide_eq_true_eq]
    constructor
    · rintro (⟨hs, _⟩ | ⟨hs, _⟩) <;> exact List.mem_dedup.mp hs
    · intro hs
      have hd := List.mem_dedup.mpr hs
      by_cases hu : s ∈ (U.map pyNorm).dedup
      · exact Or.inl ⟨hd, hu⟩
      · exact Or.inr ⟨hd, hu⟩
  · rw [hm, hms, length_pySortedStrings, length_pySortedStrings]
    have hnot : ((J.map pyNorm).dedup.filter (fun s => decide (s ∉ (U.map pyNorm).dedup)))
        = ((J.map pyNorm).dedup.filter
            (fun s => !(decide (s ∈ (U.map pyNorm).dedup)))) := by
      simp only [decide_not]
    rw [hnot]
    have hperm := (List.filter_append_perm
        (fun s => decide (s ∈ (U.map pyNorm).dedup)) ((J.map pyNorm).dedup)).length_eq
    rw [List.length_append] at hperm
    rw [List.card_toFinset]
    exact hperm

theorem C10_job_match_lists_spec_witness :
    (calculate_job_match ["Python"] ["Python", "APIs"]).2.1.length
      + (calculate_job_match ["Python"] ["Python", "APIs"]).2.2.length
      = ((["Python", "APIs"] : List String).map pyNorm).toFinset.card :=
  (C10_job_match_lists_spec ["Python"] ["Python", "APIs"]).2.2.2.2.2.2

theorem matchPct_ge_one {job : Job} (hjob : job ∈ QUANTUM_JOBS) (u : List String)
    (hpos : 0 < matchPct u job) : 1 ≤ matchPct u job := by
  rw [matchPct, job_match_pct_def] at hpos ⊢
  by_cases hL : (job.required_skills.map pyNorm).dedup = []
  · rw [if_pos hL] at hpos
    exact absurd hpos (lt_irrefl 0)
  · rw [if_neg hL] at hpos ⊢
    have hLpos : 0 < (job.required_skills.map pyNorm).dedup.length := List.length_pos.mpr hL
    have hmpos : 0 < ((job.required_skills.map pyNorm).dedup.filter
        (fun s => decide (s ∈ (u.map pyNorm).dedup))).length := by
      by_contra h0
      push_neg at h0
      have hz : ((job.required_skills.map pyNorm).dedup.filter
          (fun s => decide (s ∈ (u.map pyNorm).dedup))).length = 0 := by omega
      rw [hz] at hpos
      simp at hpos
    have hL6 : (job.required_skills.map pyNorm).dedup.length ≤ 6 := by
      have h1 : (job.required_skills.map pyNorm).dedup.length
          ≤ (job.required_skills.map pyNorm).length := (List.dedup_sublist _).length_le
      rw [List.length_map] at h1
      have h2 : ∀ j ∈ QUANTUM_JOBS, j.required_skills.length ≤ 6 := by decide
      have := h2 job hjob
      omega
    rw [div_mul_eq_mul_div, le_div_iff₀ (by exact_mod_cast hLpos)]
    have hm1 : (1 : ℚ) ≤ (((job.required_skills.map pyNorm).dedup.filter
        (fun s => decide (s ∈ (u.map pyNorm).dedup))).length : ℚ) := by
      exact_mod_cast hmpos
    have hL6' : (((job.required_skills.map pyNorm).dedup.length : ℚ)) ≤ 6 := by
      exact_mod_cast hL6
    nlinarith

/-- C4: for every user-skill list, the recommendation list contains at most
three entries, each built from a catalog job with strictly positive match
percentage, and it is pairwise ordered: strictly descending in (rounded)
match percentage, with ties broken by the job's position in the catalog
(the stable sort's tie-breaking). -/
theorem C4_recommendations_spec (user_skills : List String) :
    (get_job_recommendations user_skills).length ≤ 3
    ∧ (∀ rec ∈ get_job_recommendations user_skills,
        0 < rec.match_percentage
        ∧ ∃ job ∈ QUANTUM_JOBS, rec = mkJobRecommendation user_skills job
            ∧ 0 < matchPct user_skills job)
    ∧ List.Pairwise (fun a b =>
        b.match_percentage < a.match_percentage
        ∨ (b.match_percentage = a.match_percentage ∧ recCatIdx a < recCatIdx b))
        (get_job_recommendations user_skills) := by
  have hdef : get_job_recommendations user_skills
      = (List.insertionSort (fun a b => b.match_percentage ≤ a.match_percentage)
          (QUANTUM_JOBS.filterMap (fun job =>
            if 0 < matchPct user_skills job then some (mkJobRecommendation user_skills job)
            else none))).take 3 := rfl
  refine ⟨?_, ?_, ?_⟩
  · rw [hdef]
    exact List.length_take_le _ _
  · intro rec hrec
    rw [hdef] at hrec
    have h1 := List.Sublist.mem hrec (List.take_sublist _ _)
    have h2 := (List.mem_insertionSort _).mp h1
    obtain ⟨job, hjob, hf⟩ := List.mem_filterMap.mp h2
    by_cases hpos : 0 < matchPct user_skills job
    · rw [if_pos hpos] at hf
      obtain rfl := Option.some.inj hf
      refine ⟨?_, job, hjob, rfl, hpos⟩
      exact round2_pos (matchPct_ge_one hjob user_skills hpos)
    · rw [if_neg hpos] at hf
      exact absurd hf (by simp)
  · rw [hdef]
    apply List.Pairwise.sublist (List.take_sublist _ _)
    apply insertionSort_pairwise_lex (fun r => r.match_percentage) recCatIdx
    apply List.Pairwise.sublist (filterMap_guard_sublist _ _ QUANTUM_JOBS)
    rw [List.pairwise_map]
    dsimp only [recCatIdx, mkJobRecommendation]
    decide

theorem C4_recommendations_spec_witness :
    (get_job_recommendations ["Python", "Physics"]).length ≤ 3 :=
  (C4_recommendations_spec ["Python", "Physics"]).1

theorem mcq_score_formula (questions : List McqQuestion) (answers : List (String × Int)) :
    (grade_mcq_answers questions answers).score
      = if questions.length = 0 then 0
        else (((grade_mcq_answers questions answers).correct : ℚ) / (questions.length : ℚ)) * 100 :=
  rfl

/-- C5 counterexample: with a stored correct index of −1 (the same value as
the unanswered sentinel), grading one unanswered question counts it as
correct and yields score 100 — the claim predicts score 0 and `correct =
false`. -/
theorem C5_mcq_sentinel_counterexample :
    (grade_mcq_answers [⟨"q1", "q", ["a"], -1, "c", "e"⟩] []).score = 100
    ∧ ((grade_mcq_answers [⟨"q1", "q", ["a"], -1, "c", "e"⟩] []).details.map
        (fun d => d.correct)) = [true] := by
  constructor
  · rw [mcq_score_formula]
    have hc : (grade_mcq_answers [⟨"q1", "q", ["a"], -1, "c", "e"⟩] []).correct = 1 := by decide
    rw [hc]
    norm_num
  · decide

/-- C5 (amended): `grade_mcq_answers` treats an unanswered question as the
sentinel index −1, which is counted correct exactly when the stored correct
index is itself −1.  Provided every stored correct index differs from −1
(true of every well-formed question, whose correct index is a valid option
position), an unanswered question is never correct and submitting no
answers yields score 0; submitting the stored correct index for every
question yields score 100; and in general the score is
`100 × correct-count / total-count` (0 when there are no questions). -/
theorem C5_mcq_grading_amended (questions : List McqQuestion) (answers : List (String × Int)) :
    (∀ q ∈ questions, q.correct_answer ≠ -1 → answers.lookup q.id = none →
      (mcqDetail answers q).user_answer = -1 ∧ (mcqDetail answers q).correct = false)
    ∧ ((∀ q ∈ questions, q.correct_answer ≠ -1) → answers = [] →
        (grade_mcq_answers questions answers).score = 0)
    ∧ (questions ≠ [] → (∀ q ∈ questions, answers.lookup q.id = some q.correct_answer) →
        (grade_mcq_answers questions answers).score = 100)
    ∧ (grade_mcq_answers questions answers).score
        = (if questions.length = 0 then 0
           else 100 * ((grade_mcq_answers questions answers).correct : ℚ)
                  / (questions.length : ℚ)) := by
  refine ⟨?_, ?_, ?_, ?_⟩
  · intro q hq hne hnone
    constructor
    · simp [mcqDetail, hnone]
    · simp only [mcqDetail, hnone, Option.getD_none]
      rw [beq_eq_false_iff_ne]
      exact Ne.symm hne
  · intro hall hans
    subst hans
    rw [mcq_score_formula]
    split_ifs with h
    · rfl
    · have hc : (grade_mcq_answers questions []).correct = 0 := by
        show (questions.map (mcqDetail [])).countP (fun d => d.correct) = 0
        rw [List.countP_eq_zero]
        intro d hd
        obtain ⟨q, hq, rfl⟩ := List.mem_map.mp hd
        simp only [mcqDetail, List.lookup_nil, Option.getD_none, beq_iff_eq]
        exact fun hcontra => (hall q hq) hcontra.symm
      rw [hc]
      norm_num
  · intro hne hall
    rw [mcq_score_formula]
    have hlen0 : questions.length ≠ 0 := (List.length_pos.mpr hne).ne'
    rw [if_neg hlen0]
    have hc : (grade_mcq_answers questions answers).correct = questions.length := by
      show (questions.map (mcqDetail answers)).countP (fun d => d.correct) = questions.length
      have := List.countP_eq_length
        (l := questions.map (mcqDetail answers)) (p := fun d => d.correct)
      rw [List.length_map] at this
      rw [this]
      intro d hd
      obtain ⟨q, hq, rfl⟩ := List.mem_map.mp hd
      simp [mcqDetail, hall q hq]
    rw [hc, div_self (Nat.cast_ne_zero.mpr hlen0)]
    norm_num
  · rw [mcq_score_formula]
    split_ifs with h
    · rfl
    · ring

theorem C5_mcq_grading_amended_witness :
    (grade_mcq_answers MCQ_FALLBACK []).score = 0
    ∧ (grade_mcq_answers MCQ_FALLBACK [("mcq1", 2), ("mcq2", 1), ("mcq3", 2)]).score = 100 :=
  ⟨(C5_mcq_grading_amended MCQ_FALLBACK []).2.1 (by decide) rfl,
   (C5_mcq_grading_amended MCQ_FALLBACK [("mcq1", 2), ("mcq2", 1), ("mcq3", 2)]).2.2.1
     (by decide) (by decide)⟩

/-- C6: `grade_coding_answers` awards each question +30 points when the
stripped submission exceeds 20 characters, +30 when it contains a
function-definition marker (`def ` or `function `), and +40 when it
contains `return`; a missing or empty submission scores 0 for its question,
a submission meeting all three criteria scores exactly 100, and the overall
score is `100 × (sum of per-question points) / (100 × question-count)`
(0 when there are no questions). -/
theorem C6_coding_grading_spec (questions : List CodingQuestion)
    (answers : List (String × String)) :
    (∀ q ∈ questions,
      (codingDetail answers q).score
        = (if 20 < (pyStrip ((answers.lookup q.id).getD "")).data.length then 30 else 0)
          + (if strContains ((answers.lookup q.id).getD "") "def " = true
               ∨ strContains ((answers.lookup q.id).getD "") "function " = true then 30 else 0)
          + (if strContains ((answers.lookup q.id).getD "") "return" = true then 40 else 0))
    ∧ (∀ q ∈ questions, (answers.lookup q.id).getD "" = "" →
        (codingDetail answers q).score = 0)
    ∧ (∀ q ∈ questions, ∀ code, answers.lookup q.id = some code →
        20 < (pyStrip code).data.length →
        (strContains code "def " = true ∨ strContains code "function " = true) →
        strContains code "return" = true →
        (codingDetail answers q).score = 100)
    ∧ (grade_coding_answers questions answers).score
        = (if questions.length = 0 then 0
           else 100 * (((questions.map (fun q => (codingDetail answers q).score)).sum : ℕ) : ℚ)
                  / (100 * (questions.length : ℚ))) := by
  refine ⟨?_, ?_, ?_, ?_⟩
  · intro q hq
    simp [codingDetail, codeScore, Bool.or_eq_true]
  · intro q hq h0
    have h1 : (codingDetail answers q).score = codeScore ((answers.lookup q.id).getD "") := rfl
    rw [h1, h0]
    decide
  · intro q hq code hcode h20 hdef hret
    have h1 : (codingDetail answers q).score = codeScore ((answers.lookup q.id).getD "") := rfl
    rw [h1, hcode]
    simp only [Option.getD_some]
    unfold codeScore
    rw [if_pos h20, if_pos ((Bool.or_eq_true _ _).mpr hdef), if_pos hret]
  · have hs : (grade_coding_answers questions answers).score
        = if questions.length = 0 then 0
          else (((((questions.map (codingDetail answers)).map (fun d => d.score)).sum : ℕ) : ℚ)
                / ((questions.length : ℚ) * 100)) * 100 := rfl
    rw [hs, List.map_map]
    split_ifs with h
    · rfl
    · have hfun : questions.map ((fun d => d.score) ∘ codingDetail answers)
          = questions.map (fun q => (codingDetail answers q).score) := rfl
      rw [hfun]
      ring

theorem C6_coding_grading_spec_witness :
    (codingDetail [("code1", "def f(x):\n    return x + f(x - 1) + 42")]
      ⟨"code1", "q", "t", "programming", "easy"⟩).score = 100 :=
  (C6_coding_grading_spec [⟨"code1", "q", "t", "programming", "easy"⟩]
      [("code1", "def f(x):\n    return x + f(x - 1) + 42")]).2.2.1
    ⟨"code1", "q", "t", "programming", "easy"⟩ (by decide)
    "def f(x):\n    return x + f(x - 1) + 42" (by decide) (by decide) (Or.inl (by decide))
    (by decide)

/-- C7: `safe_json_loads` recovers the object with key `a` and value `1`
both from a reply fencing it in a ```json code block and from the raw
unfenced string; and on any input where the direct parse, the fenced-block
parse, the brace-span parse and the repaired parse all fail, it propagates
the final parse error instead of silently returning an empty object. -/
theorem C7_safe_json_loads_spec :
    safe_json_loads "Here is the answer:\n```json\n\x7b\"a\":1\x7d\n```"
        = Except.ok (Json.obj [("a", Json.num 1)])
    ∧ safe_json_loads "\x7b\"a\":1\x7d" = Except.ok (Json.obj [("a", Json.num 1)])
    ∧ (∀ t : String, (∃ e1, json_loads t = Except.error e1) → fencedAttempt t = none →
        curlyAttempt t = none → (∃ e4, json_loads (pyCleanup t) = Except.error e4) →
        ∃ e, safe_json_loads t = Except.error e) := by
  refine ⟨rfl, rfl, ?_⟩
  rintro t ⟨e1, h1⟩ h2 h3 ⟨e4, h4⟩
  by_cases ht : t = ""
  · refine ⟨"Empty content", ?_⟩
    unfold safe_json_loads
    rw [if_pos ht]
  · refine ⟨e4, ?_⟩
    unfold safe_json_loads
    rw [if_neg ht]
    simp only [h1, h2, h3]
    exact h4

theorem C7_safe_json_loads_spec_witness :
    ∃ e, safe_json_loads "hello world" = Except.error e :=
  C7_safe_json_loads_spec.2.2 "hello world" ⟨"Expecting value", rfl⟩ rfl rfl
    ⟨"Expecting value", rfl⟩

theorem year_bounds :
    ∀ (cs : List Char) (b : Bool), ∀ y ∈ yearScan cs b, 1900 ≤ y ∧ y ≤ 2099 := by
  intro cs
  induction cs with
  | nil =>
    intro b y hy
    simp [yearScan] at hy
  | cons c rest ih =>
    intro b y hy
    rw [yearScan] at hy
    rcases List.mem_append.mp hy with h | h
    · split_ifs at h with hb
      · rcases rest with _ | ⟨c2, _ | ⟨c3, _ | ⟨c4, rest4⟩⟩⟩ <;>
          simp only [yearHead, Option.toList] at h
        · exact absurd h (List.not_mem_nil y)
        · exact absurd h (List.not_mem_nil y)
        · exact absurd h (List.not_mem_nil y)
        · split_ifs at h with hcond
          · simp only [Option.toList_some, List.mem_singleton] at h
            subst h
            simp only [Bool.and_eq_true, Bool.or_eq_true, beq_iff_eq] at hcond
            obtain ⟨⟨⟨h12, hd3⟩, hd4⟩, _⟩ := hcond
            have hd3' : digitVal c3 ≤ 9 := by
              unfold isDigitC at hd3
              simp only [Bool.and_eq_true, decide_eq_true_eq] at hd3
              unfold digitVal
              omega
            have hd4' : digitVal c4 ≤ 9 := by
              unfold isDigitC at hd4
              simp only [Bool.and_eq_true, decide_eq_true_eq] at hd4
              unfold digitVal
              omega
            rcases h12 with ⟨rfl, rfl⟩ | ⟨rfl, rfl⟩
            · have e1 : digitVal '1' = 1 := rfl
              have e2 : digitVal '9' = 9 := rfl
              rw [e1, e2]
              omega
            · have e1 : digitVal '2' = 2 := rfl
              have e2 : digitVal '0' = 0 := rfl
              rw [e1, e2]
              omega
          · simp at h
      · exact absurd h (List.not_mem_nil y)
    · exact ih _ y h

/-- C8 counterexample: the line `PhD Physics` has length 11 (greater than
10) and contains the marker `PhD`, so the parser the specification
describes emits it, but `parse_education` skips it: its real threshold is a
stripped length of at least 12. -/
theorem C8_parse_education_counterexample :
    parse_education "PhD Physics" = []
    ∧ parse_education_spec "PhD Physics" = [⟨"PhD Physics", none⟩]
    ∧ parse_education "PhD Physics" ≠ parse_education_spec "PhD Physics" := by
  exact ⟨by decide, by decide, by decide⟩

/-- C8 (amended): `parse_education` returns, in document order and capped
to the first 4 qualifying lines, exactly the lines whose *stripped* length
is at least 12 (not: length greater than 10) and which contain an education
marker case-insensitively, each emitted as its trimmed text with the
maximum word-delimited 4-digit year in [1900, 2099] found in the line (or
`none` when there is no such year). -/
theorem C8_parse_education_amended (text : String) :
    parse_education text
      = (((pyLines text).filter (fun line =>
            decide (12 ≤ (pyStrip line).data.length)
              && containsKeyword education_keywords line)).map
          (fun line => { description := pyStrip line, year := lineYear line })).take 4
    ∧ (∀ e ∈ parse_education text, ∀ y, e.year = some y → 1900 ≤ y ∧ y ≤ 2099) := by
  constructor
  · unfold parse_education
    rw [filterMap_twoGuard (fun line => (pyStrip line).data.length < 12)
        (fun line => containsKeyword education_keywords line = true)
        (fun line => ({ description := pyStrip line, year := lineYear line } : EduEntry))]
    have hpred : (fun x => decide (¬ (pyStrip x).data.length < 12)
          && decide (containsKeyword education_keywords x = true))
        = (fun line => decide (12 ≤ (pyStrip line).data.length)
              && containsKeyword education_keywords line) := by
      funext line
      simp [Nat.not_lt]
    rw [hpred]
  · intro e he y hy
    unfold parse_education at he
    have he2 := List.Sublist.mem he (List.take_sublist _ _)
    obtain ⟨line, hline, hf⟩ := List.mem_filterMap.mp he2
    split_ifs at hf with h1 h2
    obtain rfl := Option.some.inj hf
    have hymem : y ∈ extract_years line :=
      List.max?_mem (fun a b => max_choice a b) hy
    exact year_bounds line.data true y hymem

theorem C8_parse_education_amended_witness :
    1900 ≤ 2020 ∧ 2020 ≤ 2099 :=
  (C8_parse_education_amended "Master of Science - Stanford University (2020)").2
    ⟨"Master of Science - Stanford University (2020)", some 2020⟩ (by decide) 2020 rfl

theorem pwe_go_map_eq (r1 r2 : ℕ → Fin 4) :
    ∀ (lines : List String) (k1 k2 : ℕ),
      (parse_work_experience_go r1 lines k1).1.map (fun e => (e.role, e.year))
        = (parse_work_experience_go r2 lines k2).1.map (fun e => (e.role, e.year)) := by
  intro lines
  induction lines with
  | nil => intro k1 k2; rfl
  | cons line rest ih =>
    intro k1 k2
    simp only [parse_work_experience_go]
    split_ifs with h1 h2
    · exact ih k1 k2
    · simp only [List.map_cons]
      rw [ih (k1 + 1) (k2 + 1)]
    · exact ih k1 k2

theorem pwe_go_duration (r : ℕ → Fin 4) :
    ∀ (lines : List String) (k : ℕ), ∀ e ∈ (parse_work_experience_go r lines k).1,
      1 ≤ e.duration ∧ e.duration ≤ 4 := by
  intro lines
  induction lines with
  | nil =>
    intro k e he
    simp [parse_work_experience_go] at he
  | cons line rest ih =>
    intro k e he
    simp only [parse_work_experience_go] at he
    split_ifs at he with h1 h2
    · exact ih k e he
    · rcases List.mem_cons.mp he with rfl | he2
      · have hval := (r k).isLt
        refine ⟨?_, ?_⟩ <;> · show _ ≤ _; dsimp only; omega
      · exact ih (k + 1) e he2
    · exact ih k e he

/-- C9 counterexample: two successive runs of `parse_work_experience` on
the same text (the second starting at the stream position where the first
stopped, exactly as the process-global RNG does between calls) disagree on
the duration field, so the parser's output is not run-to-run identical. -/
theorem C9_determinism_counterexample :
    (parse_work_experience cycleVals 0 "Software Engineer at Quantum Labs").1
      ≠ (parse_work_experience cycleVals
          (parse_work_experience cycleVals 0 "Software Engineer at Quantum Labs").2
          "Software Engineer at Quantum Labs").1 := by
  decide

/-- C9 (amended): the Heuristic Parser is deterministic *except* for the
`duration` field of work-experience entries, which is drawn from the global
RNG: for every text, the `role` and `year` fields produced by
`parse_work_experience` are the same for every RNG stream and stream
position, and every duration lies in [1, 4].  (`parse_tech_stacks` and
`parse_education` are pure functions of the text and trivially
deterministic.) -/
theorem C9_heuristic_determinism_amended (text : String) (r1 r2 : ℕ → Fin 4) (k1 k2 : ℕ) :
    (parse_work_experience r1 k1 text).1.map (fun e => (e.role, e.year))
      = (parse_work_experience r2 k2 text).1.map (fun e => (e.role, e.year))
    ∧ ∀ e ∈ (parse_work_experience r1 k1 text).1, 1 ≤ e.duration ∧ e.duration ≤ 4 := by
  constructor
  · show ((parse_work_experience_go r1 (pyLines text) k1).1.take 6).map (fun e => (e.role, e.year))
      = ((parse_work_experience_go r2 (pyLines text) k2).1.take 6).map (fun e => (e.role, e.year))
    rw [List.map_take, List.map_take, pwe_go_map_eq r1 r2]
  · intro e he
    have he2 := List.Sublist.mem he (List.take_sublist _ _)
    exact pwe_go_duration r1 (pyLines text) k1 e he2

/-- C1: on src/server.py, `submit_test` never returns a `TestResult` and
never flips the session status: `start_test` stores the session as a dict
(`sess.dict()`), and the handler's first attribute access
`session.expires_at` raises `AttributeError`, so every submit for an
existing session — even a fresh active one — produces HTTP 500.  (The
sibling backend/server.py reads `session["status"]` with subscripts and
implements the documented active → completed / second-submit-400 flow that
backend_test.py expects.) -/
theorem C1_submit_test_raises_500 (st : ServerState) (now : ℕ) (sub : TestSubmission)
    (sess : SessionDict) (hlook : st.test_sessions.lookup sub.session_id = some sess)
    (_hactive : sess.status = "active") :
    submit_test st now sub
      = Except.error ⟨500, "AttributeError: dict object has no attribute"⟩ := by
  unfold submit_test
  rw [hlook]
  rfl

theorem C1_submit_test_raises_500_witness :
    submit_test (start_test emptyState "s1" "u1" MCQ_FALLBACK CODING_FALLBACK 0).1 0
        ⟨"s1", [], []⟩
      = Except.error ⟨500, "AttributeError: dict object has no attribute"⟩ :=
  C1_submit_test_raises_500 _ 0 _ _ rfl rfl

theorem C9_heuristic_determinism_amended_witness :
    (parse_work_experience cycleVals 0 "Software Engineer at Quantum Labs").1.map
        (fun e => (e.role, e.year))
      = (parse_work_experience cycleVals 1 "Software Engineer at Quantum Labs").1.map
        (fun e => (e.role, e.year)) :=
  (C9_heuristic_determinism_amended "Software Engineer at Quantum Labs" cycleVals cycleVals 0 1).1
